import Mathlib

/-!
Shallow embedding of the closest-volume resolution code of `pkg/os/volume/api.go`.

Strings are modelled as Lean `String` (the paths involved are ASCII, so Go's
byte-indexed operations coincide with character-indexed ones).  The external
collaborators (os.Lstat, the powershell invocations behind
`dereferenceSymlink` / `getVolumeForDriveLetter` / `getTarget`, and
`filepath.Dir` from the Go standard library) are modelled as an explicit
environment of oracle functions; all control flow, string manipulation and
error construction that appears in `api.go` itself is embedded faithfully.
-/

/-- Characters matched by the regexp character class `[\w-]` of
`VolumeRegexp = Volume\{[\w-]*\}` (Go RE2 `\w` is `[0-9A-Za-z_]`). -/
def wordOrHyphen (c : Char) : Bool :=
  c.isAlphanum || c = '_' || c = '-'

/-- The literal head `Volume{` of `VolumeRegexp`. -/
def volLit : List Char :=
  ['V', 'o', 'l', 'u', 'm', 'e', '{']

/-- Scan the body of the volume token: after `Volume{`, the regexp
`[\w-]*\}` succeeds exactly when a (possibly empty) run of `[\w-]`
characters is terminated by `}`. -/
def scanBody : List Char → Bool
  | [] => false
  | c :: rest => if c = '}' then true else (wordOrHyphen c && scanBody rest)

/-- Does `VolumeRegexp` match at this exact position (anchored match)? -/
def tokenAt (l : List Char) : Bool :=
  if volLit.isPrefixOf l then scanBody (l.drop volLit.length) else false

/-- Unanchored search: `VolumeRegexp.Match` succeeds when the token occurs
at some position of the input. -/
def matchList : List Char → Bool
  | [] => false
  | c :: rest => tokenAt (c :: rest) || matchList rest

/-- `VolumeRegexp.Match([]byte(s))` of api.go:
the compiled regexp is `Volume\{[\w-]*\}`. -/
def volumeRegexpMatch (s : String) : Bool :=
  matchList s.data

/-- Go `strings.HasPrefix(s, pre)`. -/
def hasPrefixGo (s pre : String) : Bool :=
  pre.data.isPrefixOf s.data

/-- The canonical extended-path marker, the Go literal `"\\\\?\\"`,
i.e. the four characters backslash backslash question-mark backslash. -/
def extPfx : String := "\\\\?\\"

/-- `ensureVolumePrefix` of api.go: prepend the extended-path marker
unless it is already there. -/
def ensureVolumePrefix (volume : String) : String :=
  if hasPrefixGo volume extPfx then volume else extPfx ++ volume

/-- ASCII part of Go `unicode.IsSpace`, used by `strings.TrimSpace`
(the collaborator outputs involved are ASCII). -/
def goIsSpace (c : Char) : Bool :=
  c = ' ' || c = '\t' || c = '\n' || c = '\x0b' || c = '\x0c' || c = '\r'

/-- Go `strings.TrimSpace`. -/
def trimSpace (s : String) : String :=
  String.mk (((s.data.dropWhile goIsSpace).reverse.dropWhile goIsSpace).reverse)

/-- Errors produced by the embedded code or by a collaborator. -/
inductive VolErr where
  /-- an error coming out of an external collaborator
  (os.Lstat failure, powershell failure, ...) -/
  | external (msg : String) : VolErr
  /-- `"Unexpected stderr output in command=..."` of `dereferenceSymlink` -/
  | unexpectedStderr (path : String) : VolErr
  /-- `"The path=%s is not a valid DriverLetter"` of `getVolumeForDriveLetter` -/
  | notDriveLetter (path : String) : VolErr
  /-- `"Failed to find the closest volume for path=%s"` of `findClosestVolume` -/
  | notFound (path : String) : VolErr
  /-- `"error getting volume from mount..."` of `getTarget` -/
  | getTargetFailed (mount : String) : VolErr
  /-- the wrapping done by `GetClosestVolumeIDFromTargetPath` -/
  | wrapClosest (path : String) (inner : VolErr) : VolErr
  /-- the wrapping done by `GetVolumeIDFromTargetPath` -/
  | wrapMount (mount : String) (inner : VolErr) : VolErr
deriving DecidableEq

/-- Is the error one that originated in a collaborator (as opposed to one
constructed by the embedded repository code itself)? -/
def VolErr.isExternal : VolErr → Bool
  | .external _ => true
  | _ => false

/-- Outcome of a Go function returning `(string, error)`.  `ret v e`
models the function returning value `v` together with error `e`
(`none` = nil); `panic` models a runtime panic (e.g. an out-of-range
string slice), which does not return at all. -/
inductive VolRet where
  | ret (value : String) (err : Option VolErr) : VolRet
  | panic : VolRet
deriving DecidableEq

/-- The external collaborators of the resolution code. -/
structure VolEnv where
  /-- `os.Lstat(path)` followed by `fi.Mode()&os.ModeSymlink != 0`,
  abstracted to the Boolean it computes: `.ok true` means the path is a
  symlink, `.ok false` a plain entry, `.error e` a failed stat. -/
  lstat : String → Except VolErr Bool
  /-- the powershell invocation inside `dereferenceSymlink`
  (`(Get-Item -Path path).Target` via `cmd.Run`): on success returns the
  pair (stdout, stderr). -/
  runPS : String → Except VolErr (String × String)
  /-- the powershell invocation inside `getVolumeForDriveLetter`
  (`(Get-Partition -DriveLetter x | Get-Volume).UniqueId` via
  `cmd.Output`): on success returns stdout. -/
  drivePS : String → Except VolErr String
  /-- Go's `filepath.Dir`.  It is standard-library code, not repository
  code, so it enters the model as an oracle. -/
  dir : String → String
  /-- the `runExec` invocation inside `getTarget`
  (`(Get-Item -Path mount).Target` via `CombinedOutput`). -/
  runExecTarget : String → Except VolErr String

/-- `dereferenceSymlink` of api.go: run the powershell command, fail on a
command error or on any stderr output, otherwise return the trimmed stdout. -/
def dereferenceSymlink (env : VolEnv) (path : String) : Except VolErr String :=
  match env.runPS path with
  | .error e => .error e
  | .ok (stdout, stderr) =>
    if stderr.length ≠ 0 then .error (.unexpectedStderr path)
    else .ok (trimSpace stdout)

/-- `getVolumeForDriveLetter` of api.go: reject any input whose length is
not exactly 1 before doing anything external, otherwise run the powershell
lookup and return its trimmed output. -/
def getVolumeForDriveLetter (env : VolEnv) (path : String) : Except VolErr String :=
  if path.length ≠ 1 then .error (.notDriveLetter path)
  else
    match env.drivePS path with
    | .error e => .error e
    | .ok targetb => .ok (trimSpace targetb)

/-- The Go byte-slice `s[0:1]`: `none` models the panic on an empty
string, otherwise the one-character string holding the first character. -/
def sliceFirst (s : String) : Option String :=
  match s.data with
  | [] => none
  | c :: _ => some (String.mk [c])

/-- The loop body of `findClosestVolume`, with the remaining iteration
budget as explicit fuel (the source runs `for i := 0; i < 256; i += 1`).
`orig` is the original `path` argument (used by the failure message after
the loop); `nl` and `nd` accumulate the number of `os.Lstat` calls and of
`dereferenceSymlink` calls performed so far, so that the walk's cost is
part of the result. -/
def fcvAux (env : VolEnv) (orig : String) :
    Nat → String → Nat → Nat → VolRet × Nat × Nat
  | 0, _, nl, nd => (.ret "" (some (.notFound orig)), nl, nd)
  | fuel + 1, candidatePath, nl, nd =>
    match env.lstat candidatePath with
    | .error e => (.ret "" (some e), nl + 1, nd)
    | .ok isSymlink =>
      if isSymlink then
        match dereferenceSymlink env candidatePath with
        | .error e => (.ret "" (some e), nl + 1, nd + 1)
        | .ok target =>
          if volumeRegexpMatch target then
            (.ret (ensureVolumePrefix target) none, nl + 1, nd + 1)
          else
            fcvAux env orig fuel target (nl + 1) (nd + 1)
      else
        let candidate2 := env.dir candidatePath
        if candidatePath = candidate2 then
          match sliceFirst candidate2 with
          | none => (.panic, nl + 1, nd)
          | some c1 =>
            match getVolumeForDriveLetter env c1 with
            | .error e => (.ret "" (some e), nl + 1, nd)
            | .ok target => (.ret target none, nl + 1, nd)
        else
          fcvAux env orig fuel candidate2 (nl + 1) nd

/-- `findClosestVolume` of api.go together with the number of lstat and
symlink-dereference calls it performed. -/
def findClosestVolumeStats (env : VolEnv) (path : String) : VolRet × Nat × Nat :=
  fcvAux env path 256 path 0 0

/-- `findClosestVolume` of api.go. -/
def findClosestVolume (env : VolEnv) (path : String) : VolRet :=
  (findClosestVolumeStats env path).1

/-- `GetClosestVolumeIDFromTargetPath` of api.go: on error return the
empty string and the wrapped error, otherwise pass the result through. -/
def GetClosestVolumeIDFromTargetPath (env : VolEnv) (targetPath : String) : VolRet :=
  match findClosestVolume env targetPath with
  | .panic => .panic
  | .ret v none => .ret v none
  | .ret _ (some e) => .ret "" (some (.wrapClosest targetPath e))

/-- `getTarget` of api.go, which recurses with no iteration bound; the
fuel only truncates the model: `none` means the recursion has not
returned within `fuel` unfoldings (for no fuel at all if it diverges). -/
def getTargetFuel (env : VolEnv) : Nat → String → Option VolRet
  | 0, _ => none
  | fuel + 1, mount =>
    match env.runExecTarget mount with
    | .error _ => some (.ret "" (some (.getTargetFailed mount)))
    | .ok out =>
      if out.length = 0 then some (.ret "" (some (.getTargetFailed mount)))
      else
        let volumeString := trimSpace out
        if hasPrefixGo volumeString "Volume" then
          some (.ret (ensureVolumePrefix volumeString) none)
        else
          getTargetFuel env fuel volumeString

/-- `GetVolumeIDFromTargetPath` of api.go (the sibling public entry point
that resolves via `getTarget`), at the same fuel truncation. -/
def GetVolumeIDFromTargetPath (env : VolEnv) (fuel : Nat) (mount : String) :
    Option VolRet :=
  match getTargetFuel env fuel mount with
  | none => none
  | some .panic => some .panic
  | some (.ret v none) => some (.ret v none)
  | some (.ret _ (some e)) => some (.ret "" (some (.wrapMount mount e)))

/-- `getTarget` reaches a base case within `fuel` recursive unfoldings:
its collaborator errs (or produces empty output), or the trimmed target
starts with the literal `Volume`, or the recursion on the trimmed target
reaches a base case with one unit less fuel. -/
def reachesBase (env : VolEnv) : Nat → String → Prop
  | 0, _ => False
  | fuel + 1, mount =>
    (∃ e, env.runExecTarget mount = .error e) ∨
    (∃ out, env.runExecTarget mount = .ok out ∧ out.length = 0) ∨
    (∃ out, env.runExecTarget mount = .ok out ∧ out.length ≠ 0 ∧
      (hasPrefixGo (trimSpace out) "Volume" = true ∨
        (hasPrefixGo (trimSpace out) "Volume" = false ∧
          reachesBase env fuel (trimSpace out))))

/-- A chain of immediate symlinks: `c` is a symlink dereferencing to the
head of `ms`, each element of `ms` is a symlink dereferencing to the next
one, none of the intermediate targets in `ms` is volume-shaped, and the
last dereference yields `t`.  The chain has `ms.length + 1` links. -/
def chainsTo (env : VolEnv) : String → List String → String → Prop
  | c, [], t => env.lstat c = .ok true ∧ dereferenceSymlink env c = .ok t
  | c, m :: ms, t =>
    env.lstat c = .ok true ∧ dereferenceSymlink env c = .ok m ∧
      volumeRegexpMatch m = false ∧ chainsTo env m ms t

/-- A plain (symlink-free) climb of `n` parent steps from `c` to the
filesystem root `root`: every visited path is a non-symlink, taking the
parent directory changes the path `n` times, and then reproduces it. -/
def climbsTo (env : VolEnv) : String → Nat → String → Prop
  | c, 0, root => env.lstat c = .ok false ∧ env.dir c = c ∧ c = root
  | c, n + 1, root =>
    env.lstat c = .ok false ∧ env.dir c ≠ c ∧ climbsTo env (env.dir c) n root

/-- The volume-shape test as the specification words it: `Volume{`
followed by ONE or more word-or-hyphen characters followed by `}`,
anywhere in the string.  This definition follows the specification text,
to be compared with `volumeRegexpMatch`, which embeds the source. -/
def scanBodySpec : List Char → Bool
  | [] => false
  | c :: rest => wordOrHyphen c && scanBody rest

def tokenAtSpec (l : List Char) : Bool :=
  if volLit.isPrefixOf l then scanBodySpec (l.drop volLit.length) else false

def matchListSpec : List Char → Bool
  | [] => false
  | c :: rest => tokenAtSpec (c :: rest) || matchListSpec rest

/-- The specification's one-or-more reading of the Volume Shape Matcher. -/
def specVolumeMatchOneOrMore (s : String) : Bool :=
  matchListSpec s.data

/-- A concrete environment in which every path is a plain (non-symlink)
entry, every parent directory is the root `C`, and the drive-letter
lookup answers with an identifier that does NOT carry the extended-path
marker. -/
def envRoot : VolEnv where
  lstat := fun _ => .ok false
  runPS := fun _ => .error (.external "e")
  drivePS := fun _ => .ok "Volume\x7bz\x7d"
  dir := fun _ => "C"
  runExecTarget := fun _ => .ok ""

/-- A concrete environment in which every path is a symlink whose
immediate target is the volume-shaped string `Volume{a}` (without the
extended-path marker), and in which the `getTarget` collaborator answers
`Volume{w}`. -/
def envSym : VolEnv where
  lstat := fun _ => .ok true
  runPS := fun _ => .ok ("Volume\x7ba\x7d", "")
  drivePS := fun _ => .error (.external "e")
  dir := fun s => s
  runExecTarget := fun _ => .ok "Volume\x7bw\x7d"

/-- A concrete environment describing a cyclic symlink chain: every path
is a symlink whose immediate target is the path `m`, which is itself such
a symlink, and the `getTarget` collaborator likewise answers `m` forever. -/
def envCyc : VolEnv where
  lstat := fun _ => .ok true
  runPS := fun _ => .ok ("m", "")
  drivePS := fun _ => .error (.external "no")
  dir := fun _ => "m"
  runExecTarget := fun _ => .ok "m"

/-- A concrete environment in which every metadata query fails. -/
def envLstatErr : VolEnv where
  lstat := fun _ => .error (.external "boom")
  runPS := fun _ => .error (.external "boom")
  drivePS := fun _ => .error (.external "boom")
  dir := fun s => s
  runExecTarget := fun _ => .error (.external "boom")

/-! ## Properties of the normalizer -/

theorem hasPrefixGo_append (pre v : String) : hasPrefixGo (pre ++ v) pre = true := by
  simp [hasPrefixGo, String.data_append, List.isPrefixOf_iff_prefix]

theorem evp_of_has (s : String) (h : hasPrefixGo s extPfx = true) :
    ensureVolumePrefix s = s := by
  simp [ensureVolumePrefix, h]

theorem evp_of_not_has (s : String) (h : hasPrefixGo s extPfx = false) :
    ensureVolumePrefix s = extPfx ++ s := by
  simp [ensureVolumePrefix, h]

theorem evp_has (s : String) : hasPrefixGo (ensureVolumePrefix s) extPfx = true := by
  by_cases h : hasPrefixGo s extPfx = true
  · rw [evp_of_has s h]; exact h
  · rw [evp_of_not_has s (by simpa using h)]; exact hasPrefixGo_append extPfx s

theorem evp_idem (s : String) :
    ensureVolumePrefix (ensureVolumePrefix s) = ensureVolumePrefix s :=
  evp_of_has _ (evp_has s)

/-- C6: `ensureVolumePrefix` is idempotent; it is the identity on any
string already carrying the canonical marker `\\?\`, its output always
carries the marker, and on a string not carrying the marker it prepends
exactly one copy of it. -/
theorem ensureVolumePrefix_idem (s : String) :
    ensureVolumePrefix (ensureVolumePrefix s) = ensureVolumePrefix s ∧
    (hasPrefixGo s extPfx = true → ensureVolumePrefix s = s) ∧
    hasPrefixGo (ensureVolumePrefix s) extPfx = true ∧
    (hasPrefixGo s extPfx = false → ensureVolumePrefix s = extPfx ++ s) :=
  ⟨evp_idem s, evp_of_has s, evp_has s, evp_of_not_has s⟩

/-- Witness for C6 at the volume-shaped input `Volume{a}`. -/
theorem ensureVolumePrefix_idem_witness :
    ensureVolumePrefix (ensureVolumePrefix "Volume\x7ba\x7d") =
      ensureVolumePrefix "Volume\x7ba\x7d" ∧
    hasPrefixGo "Volume\x7ba\x7d" extPfx = false ∧
    ensureVolumePrefix "Volume\x7ba\x7d" = extPfx ++ "Volume\x7ba\x7d" :=
  ⟨(ensureVolumePrefix_idem "Volume\x7ba\x7d").1, by decide,
    (ensureVolumePrefix_idem "Volume\x7ba\x7d").2.2.2 (by decide)⟩

/-- C7: `getVolumeForDriveLetter` errors on every input whose length is
not exactly one character, and does so without invoking the external
lookup: the result does not depend on the environment at all. -/
theorem driveLetter_length_check (env env2 : VolEnv) (path : String)
    (h : path.length ≠ 1) :
    getVolumeForDriveLetter env path = .error (.notDriveLetter path) ∧
    getVolumeForDriveLetter env path = getVolumeForDriveLetter env2 path := by
  constructor
  · simp [getVolumeForDriveLetter, h]
  · simp [getVolumeForDriveLetter, h]

/-- Witness for C7 at the two-character input `ab`. -/
theorem driveLetter_length_check_witness :
    "ab".length ≠ 1 ∧
    getVolumeForDriveLetter envRoot "ab" = .error (.notDriveLetter "ab") :=
  ⟨by decide, (driveLetter_length_check envRoot envSym "ab" (by decide)).1⟩

/-! ## Properties of the Volume Shape Matcher -/

theorem scanBody_iff (l : List Char) :
    scanBody l = true ↔
    ∃ body post, l = body ++ '}' :: post ∧ ∀ c ∈ body, wordOrHyphen c = true := by
  constructor
  · induction l with
    | nil => intro h; simp [scanBody] at h
    | cons c rest ih =>
      intro h
      by_cases hc : c = '}'
      · exact ⟨[], rest, by rw [hc]; rfl, by simp⟩
      · rw [scanBody, if_neg hc, Bool.and_eq_true] at h
        obtain ⟨body, post, hb, hall⟩ := ih h.2
        exact ⟨c :: body, post, by rw [hb]; rfl, by
          intro d hd
          rcases List.mem_cons.mp hd with h1 | h2
          · rw [h1]; exact h.1
          · exact hall d h2⟩
  · rintro ⟨body, post, hb, hall⟩
    subst hb
    induction body with
    | nil => simp [scanBody]
    | cons c body ih =>
      have hw : wordOrHyphen c = true := hall c (by simp)
      have hc : c ≠ '}' := by
        intro h; rw [h] at hw; exact absurd hw (by decide)
      rw [List.cons_append, scanBody, if_neg hc, Bool.and_eq_true]
      exact ⟨hw, ih (fun d hd => hall d (List.mem_cons_of_mem c hd))⟩

theorem tokenAt_iff (l : List Char) :
    tokenAt l = true ↔
    ∃ body post, l = volLit ++ (body ++ '}' :: post) ∧
      ∀ c ∈ body, wordOrHyphen c = true := by
  constructor
  · intro h
    rw [tokenAt] at h
    by_cases hp : volLit.isPrefixOf l
    · rw [if_pos hp] at h
      obtain ⟨rest, hrest⟩ := (List.isPrefixOf_iff_prefix.mp hp)
      have hdrop : l.drop volLit.length = rest := by
        rw [← hrest]; exact List.drop_left volLit rest
      rw [hdrop] at h
      obtain ⟨body, post, hb, hall⟩ := (scanBody_iff rest).mp h
      exact ⟨body, post, by rw [← hrest, hb], hall⟩
    · rw [if_neg hp] at h; exact absurd h (by simp)
  · rintro ⟨body, post, hb, hall⟩
    subst hb
    have hp : volLit.isPrefixOf (volLit ++ (body ++ '}' :: post)) = true := by
      simp [List.isPrefixOf_iff_prefix]
    rw [tokenAt, if_pos hp, List.drop_left volLit]
    exact (scanBody_iff _).mpr ⟨body, post, rfl, hall⟩

theorem matchList_iff (l : List Char) :
    matchList l = true ↔ ∃ pre suf, l = pre ++ suf ∧ tokenAt suf = true := by
  constructor
  · induction l with
    | nil => intro h; simp [matchList] at h
    | cons c rest ih =>
      intro h
      rw [matchList, Bool.or_eq_true] at h
      rcases h with h | h
      · exact ⟨[], c :: rest, rfl, h⟩
      · obtain ⟨pre, suf, hps, ht⟩ := ih h
        exact ⟨c :: pre, suf, by rw [hps]; rfl, ht⟩
  · rintro ⟨pre, suf, hps, ht⟩
    subst hps
    induction pre with
    | nil =>
      cases suf with
      | nil => exact absurd ht (by simp [tokenAt, volLit])
      | cons c rest => rw [List.nil_append, matchList, Bool.or_eq_true]; exact Or.inl ht
    | cons p pre ih =>
      rw [List.cons_append, matchList, Bool.or_eq_true]
      exact Or.inr ih

/-- C4 counterexample: the source regexp `Volume\{[\w-]*\}` allows an
EMPTY body, so the string `Volume{}` is matched by the code even though
under the claim's one-or-more reading it must not be. -/
theorem volumeMatch_empty_braces_counterexample :
    volumeRegexpMatch "Volume\x7b\x7d" = true ∧
    specVolumeMatchOneOrMore "Volume\x7b\x7d" = false := by
  exact ⟨by decide, by decide⟩

/-- C4 (amended): `VolumeRegexp` matches `s` iff `s` contains, anywhere
within it, the literal `Volume{` followed by ZERO or more word-or-hyphen
characters followed by `}`. -/
theorem volumeMatch_iff_zero_or_more (s : String) :
    volumeRegexpMatch s = true ↔
    ∃ pre body post, s.data = pre ++ (volLit ++ (body ++ '}' :: post)) ∧
      ∀ c ∈ body, wordOrHyphen c = true := by
  rw [volumeRegexpMatch, matchList_iff]
  constructor
  · rintro ⟨pre, suf, hps, ht⟩
    obtain ⟨body, post, hb, hall⟩ := (tokenAt_iff suf).mp ht
    exact ⟨pre, body, post, by rw [hps, hb], hall⟩
  · rintro ⟨pre, body, post, hb, hall⟩
    exact ⟨pre, volLit ++ (body ++ '}' :: post), hb,
      (tokenAt_iff _).mpr ⟨body, post, rfl, hall⟩⟩

/-- Witness for the amended C4 at the input `xVolume{a-b}y`. -/
theorem volumeMatch_iff_zero_or_more_witness :
    ∃ pre body post,
      (String.data "xVolume\x7ba-b\x7dy") = pre ++ (volLit ++ (body ++ '}' :: post)) ∧
      ∀ c ∈ body, wordOrHyphen c = true :=
  (volumeMatch_iff_zero_or_more "xVolume\x7ba-b\x7dy").mp (by decide)

/-! ## The symlink-chain success path of the walker -/

theorem fcvAux_chain (env : VolEnv) (orig t : String)
    (hm : volumeRegexpMatch t = true) :
    ∀ (ms : List String) (c : String) (fuel nl nd : Nat),
      chainsTo env c ms t → ms.length < fuel →
      fcvAux env orig fuel c nl nd =
        (.ret (ensureVolumePrefix t) none, nl + (ms.length + 1), nd + (ms.length + 1)) := by
  intro ms
  induction ms with
  | nil =>
    intro c fuel nl nd hch hf
    obtain ⟨hl, hd⟩ := hch
    cases fuel with
    | zero => exact absurd hf (by simp)
    | succ f =>
      simp only [fcvAux, hl, hd]
      simp [hm]
  | cons m ms ih =>
    intro c fuel nl nd hch hf
    obtain ⟨hl, hd, hmm, hrest⟩ := hch
    cases fuel with
    | zero => exact absurd hf (by simp)
    | succ f =>
      simp only [fcvAux, hl, hd, hmm]
      simp only [Bool.false_eq_true, if_false, if_true]
      rw [ih m f (nl + 1) (nd + 1) hrest (by simp at hf ⊢; omega)]
      simp only [Prod.mk.injEq, List.length_cons]
      refine ⟨trivial, by omega, by omega⟩

/-- C1: for a chain of `k` symlinks (`k = ms.length + 1`, `1 ≤ k < 256`)
whose final target `t` is volume-shaped, `findClosestVolume` returns the
canonicalized final target after exactly `k` symlink-dereference calls
(and `k` lstat calls); the canonical marker is present in the result and
is not added a second time when the raw target already carried it. -/
theorem chain_of_symlinks_resolves (env : VolEnv) (path t : String) (ms : List String)
    (hch : chainsTo env path ms t) (hm : volumeRegexpMatch t = true)
    (hk : ms.length + 1 < 256) :
    findClosestVolumeStats env path =
      (.ret (ensureVolumePrefix t) none, ms.length + 1, ms.length + 1) ∧
    hasPrefixGo (ensureVolumePrefix t) extPfx = true ∧
    (hasPrefixGo t extPfx = true → ensureVolumePrefix t = t) := by
  refine ⟨?_, evp_has t, evp_of_has t⟩
  have h := fcvAux_chain env path t hm ms path 256 0 0 hch (by omega)
  simpa [findClosestVolumeStats] using h

/-- Witness for C1: a one-link chain in `envSym`, from `L` straight to
the volume-shaped target `Volume{a}`. -/
theorem chain_of_symlinks_resolves_witness :
    chainsTo envSym "L" [] "Volume\x7ba\x7d" ∧
    findClosestVolumeStats envSym "L" =
      (.ret (ensureVolumePrefix "Volume\x7ba\x7d") none, 1, 1) :=
  ⟨⟨rfl, rfl⟩,
    (chain_of_symlinks_resolves envSym "L" "Volume\x7ba\x7d" [] ⟨rfl, rfl⟩
      (by decide) (by decide)).1⟩

/-! ## The root (drive-letter) success path of the walker -/

theorem fcvAux_climb (env : VolEnv) (orig root r1 v : String)
    (hroot : sliceFirst root = some r1)
    (hq : getVolumeForDriveLetter env r1 = .ok v) :
    ∀ (n : Nat) (c : String) (fuel nl nd : Nat),
      climbsTo env c n root → n < fuel →
      fcvAux env orig fuel c nl nd = (.ret v none, nl + (n + 1), nd) := by
  intro n
  induction n with
  | zero =>
    intro c fuel nl nd hcl hf
    obtain ⟨hl, hdir, hceq⟩ := hcl
    cases fuel with
    | zero => exact absurd hf (by simp)
    | succ f =>
      subst hceq
      simp only [fcvAux, hl]
      rw [hdir]
      simp [hroot, hq]
  | succ n ih =>
    intro c fuel nl nd hcl hf
    obtain ⟨hl, hne, hrest⟩ := hcl
    cases fuel with
    | zero => exact absurd hf (by simp)
    | succ f =>
      simp only [fcvAux, hl]
      simp only [Bool.false_eq_true, if_false]
      rw [if_neg (fun h => hne h.symm)]
      rw [ih (env.dir c) f (nl + 1) nd hrest (by omega)]
      simp only [Prod.mk.injEq]
      refine ⟨trivial, by omega, trivial⟩

/-- C5: for a plain path `n` parent levels above the filesystem root
(no symlinks anywhere along the climb), `findClosestVolume` returns the
drive-letter resolver's output for the one-character slice of the root
and performs exactly `n + 1` lstat queries (and no symlink dereference). -/
theorem plain_path_climb_resolves (env : VolEnv) (path root r1 v : String) (n : Nat)
    (hcl : climbsTo env path n root) (hn : n + 1 ≤ 256)
    (hroot : sliceFirst root = some r1)
    (hq : getVolumeForDriveLetter env r1 = .ok v) :
    findClosestVolumeStats env path = (.ret v none, n + 1, 0) := by
  have h := fcvAux_climb env path root r1 v hroot hq n path 256 0 0 hcl (by omega)
  simpa [findClosestVolumeStats] using h

/-- Witness for C5: a two-step climb in `envRoot`, from `P` to the root
`C`, resolved to the (unprefixed) resolver output `Volume{z}`. -/
theorem plain_path_climb_resolves_witness :
    climbsTo envRoot "P" 1 "C" ∧
    findClosestVolumeStats envRoot "P" = (.ret "Volume\x7bz\x7d" none, 2, 0) :=
  ⟨⟨rfl, by decide, rfl, rfl, rfl⟩,
    plain_path_climb_resolves envRoot "P" "C" "C" "Volume\x7bz\x7d" 1
      ⟨rfl, by decide, rfl, rfl, rfl⟩ (by omega) rfl rfl⟩

/-! ## The root result is not normalized (C3) -/

/-- C3 counterexample: in `envRoot` the walk for input `C` immediately
reaches the root and returns the drive-letter resolver's output
`Volume{z}` VERBATIM: the result does not carry the canonical marker and
differs from its own normalization, so the resolver output is not passed
through `ensureVolumePrefix` before being returned. -/
theorem root_result_not_normalized_counterexample :
    findClosestVolume envRoot "C" = .ret "Volume\x7bz\x7d" none ∧
    hasPrefixGo "Volume\x7bz\x7d" extPfx = false ∧
    "Volume\x7bz\x7d" ≠ ensureVolumePrefix "Volume\x7bz\x7d" := by
  refine ⟨by decide, by decide, by decide⟩

/-- C3 (amended): when the walk reaches the filesystem root, the
drive-letter resolver's result is returned exactly as produced, with no
normalization applied; it carries the canonical marker only when the
resolver's own output does.  (The canonical-marker invariant does hold on
the symlink success path, where `ensureVolumePrefix` is applied.) -/
theorem root_result_returned_verbatim (env : VolEnv) (path root r1 v : String) (n : Nat)
    (hcl : climbsTo env path n root) (hn : n + 1 ≤ 256)
    (hroot : sliceFirst root = some r1)
    (hq : getVolumeForDriveLetter env r1 = .ok v) :
    findClosestVolume env path = .ret v none := by
  have h := fcvAux_climb env path root r1 v hroot hq n path 256 0 0 hcl (by omega)
  simp [findClosestVolume, findClosestVolumeStats, h]

/-- Witness for the amended C3: `envRoot` with input `C` reaches the root
in one iteration and yields the unprefixed resolver output unchanged. -/
theorem root_result_returned_verbatim_witness :
    climbsTo envRoot "C" 0 "C" ∧
    findClosestVolume envRoot "C" = .ret "Volume\x7bz\x7d" none :=
  ⟨⟨rfl, rfl, rfl⟩,
    root_result_returned_verbatim envRoot "C" "C" "C" "Volume\x7bz\x7d" 0
      ⟨rfl, rfl, rfl⟩ (by omega) rfl rfl⟩

/-! ## The iteration bound (C2) -/

theorem fcvAux_count_le (env : VolEnv) (orig : String) :
    ∀ (fuel : Nat) (c : String) (nl nd : Nat),
      (fcvAux env orig fuel c nl nd).2.1 ≤ nl + fuel ∧
      (fcvAux env orig fuel c nl nd).2.2 ≤ nd + fuel := by
  intro fuel
  induction fuel with
  | zero => intro c nl nd; simp [fcvAux]
  | succ f ih =>
    intro c nl nd
    simp only [fcvAux]
    split
    · exact ⟨by simp, by simp⟩
    · split
      · split
        · exact ⟨by simp, by simp⟩
        · split
          · exact ⟨by simp, by simp⟩
          · rename_i tgt hdeq hv
            obtain ⟨h1, h2⟩ := ih tgt (nl + 1) (nd + 1)
            exact ⟨by omega, by omega⟩
      · split
        · split
          · exact ⟨by simp, by simp⟩
          · split
            · exact ⟨by simp, by simp⟩
            · exact ⟨by simp, by simp⟩
        · obtain ⟨h1, h2⟩ := ih (env.dir c) (nl + 1) nd
          exact ⟨by omega, by omega⟩

theorem fcvAux_cyclic (env : VolEnv) (orig : String)
    (hL : ∀ s, env.lstat s = .ok true)
    (hD : ∀ s, ∃ t, dereferenceSymlink env s = .ok t ∧ volumeRegexpMatch t = false) :
    ∀ (fuel : Nat) (c : String) (nl nd : Nat),
      fcvAux env orig fuel c nl nd =
        (.ret "" (some (.notFound orig)), nl + fuel, nd + fuel) := by
  intro fuel
  induction fuel with
  | zero => intro c nl nd; simp [fcvAux]
  | succ f ih =>
    intro c nl nd
    obtain ⟨t, hd, hm⟩ := hD c
    simp only [fcvAux, hL c, hd, hm]
    simp only [Bool.false_eq_true, if_false, if_true]
    rw [ih t (nl + 1) (nd + 1)]
    simp only [Prod.mk.injEq]
    refine ⟨trivial, by omega, by omega⟩

/-- C2: the walk performs at most 256 iterations (each iteration issues
exactly one lstat, so the lstat count bounds the iteration count), and an
environment behaving as an endless symlink chain — every path a symlink
whose target is never volume-shaped — exhausts exactly 256 iterations and
yields the iteration-bound resolution failure, not a panic and not a
truncated result. -/
theorem iteration_bound_256 (env : VolEnv) (path : String) :
    (findClosestVolumeStats env path).2.1 ≤ 256 ∧
    ((∀ s, env.lstat s = .ok true) →
      (∀ s, ∃ t, dereferenceSymlink env s = .ok t ∧ volumeRegexpMatch t = false) →
      findClosestVolume env path = .ret "" (some (.notFound path)) ∧
      (findClosestVolumeStats env path).2.1 = 256) := by
  constructor
  · have h := (fcvAux_count_le env path 256 path 0 0).1
    simpa [findClosestVolumeStats] using h
  · intro hL hD
    have h := fcvAux_cyclic env path hL hD 256 path 0 0
    constructor
    · simp [findClosestVolume, findClosestVolumeStats, h]
    · simp [findClosestVolumeStats, h]

/-- Witness for C2: the cyclic environment `envCyc`, in which every path
is a symlink dereferencing to `m` forever. -/
theorem iteration_bound_256_witness :
    (findClosestVolumeStats envCyc "m").2.1 ≤ 256 ∧
    findClosestVolume envCyc "m" = .ret "" (some (.notFound "m")) :=
  ⟨(iteration_bound_256 envCyc "m").1,
    ((iteration_bound_256 envCyc "m").2 (fun _ => rfl)
      (fun _ => ⟨"m", rfl, by decide⟩)).1⟩

/-! ## All-or-nothing error reporting (C8) -/

theorem fcvAux_err_empty (env : VolEnv) (orig : String) :
    ∀ (fuel : Nat) (c : String) (nl nd : Nat) (v : String) (e : VolErr),
      (fcvAux env orig fuel c nl nd).1 = .ret v (some e) → v = "" := by
  intro fuel
  induction fuel with
  | zero =>
    intro c nl nd v e h
    simp only [fcvAux] at h
    injection h with h1 h2
    exact h1.symm
  | succ f ih =>
    intro c nl nd v e h
    simp only [fcvAux] at h
    split at h
    · injection h with h1 h2; exact h1.symm
    · split at h
      · split at h
        · injection h with h1 h2; exact h1.symm
        · split at h
          · injection h with h1 h2; exact Option.noConfusion h2
          · exact ih _ (nl + 1) (nd + 1) v e h
      · split at h
        · split at h
          · exact VolRet.noConfusion h
          · split at h
            · injection h with h1 h2; exact h1.symm
            · injection h with h1 h2; exact Option.noConfusion h2
        · exact ih (env.dir c) (nl + 1) nd v e h

/-- C8: resolution is all-or-nothing — whenever
`GetClosestVolumeIDFromTargetPath` (or the underlying
`findClosestVolume`) returns a non-nil error, the volume-identifier
string returned alongside it is empty. -/
theorem closest_volume_all_or_nothing (env : VolEnv) (path : String) :
    (∀ v e, GetClosestVolumeIDFromTargetPath env path = .ret v (some e) → v = "") ∧
    (∀ v e, findClosestVolume env path = .ret v (some e) → v = "") := by
  constructor
  · intro v e h
    unfold GetClosestVolumeIDFromTargetPath at h
    split at h
    · exact VolRet.noConfusion h
    · injection h with h1 h2; exact Option.noConfusion h2
    · injection h with h1 h2; exact h1.symm
  · intro v e h
    exact fcvAux_err_empty env path 256 path 0 0 v e
      (by simpa [findClosestVolume, findClosestVolumeStats] using h)

/-- Witness for C8: in `envLstatErr` the very first metadata query fails,
and the wrapper surfaces the wrapped error together with the empty
string. -/
theorem closest_volume_all_or_nothing_witness :
    GetClosestVolumeIDFromTargetPath envLstatErr "p" =
      .ret "" (some (.wrapClosest "p" (.external "boom"))) ∧ ("" : String) = "" :=
  ⟨by decide,
    (closest_volume_all_or_nothing envLstatErr "p").1 ""
      (.wrapClosest "p" (.external "boom")) (by decide)⟩

/-! ## Safety of the root branch (C9) -/

theorem sliceFirst_none (s : String) (h : sliceFirst s = none) : s = "" := by
  unfold sliceFirst at h
  split at h
  · rename_i hdata
    exact String.ext (hdata.trans rfl)
  · exact Option.noConfusion h

theorem sliceFirst_length (s c1 : String) (h : sliceFirst s = some c1) :
    c1.length = 1 := by
  unfold sliceFirst at h
  split at h
  · exact Option.noConfusion h
  · injection h with h1
    rw [← h1]
    rfl

theorem deref_err_not_dl (env : VolEnv) (s : String) (e : VolErr)
    (hps : ∀ s2 e2, env.runPS s2 = .error e2 → e2.isExternal = true)
    (h : dereferenceSymlink env s = .error e) :
    ∀ q, e ≠ .notDriveLetter q := by
  intro q heq
  subst heq
  unfold dereferenceSymlink at h
  split at h
  · rename_i e2 h2
    injection h with h3
    have hx := hps s e2 h2
    rw [h3] at hx
    simp [VolErr.isExternal] at hx
  · split at h
    · injection h with h3
      exact VolErr.noConfusion h3
    · exact Except.noConfusion h

theorem gvdl_err_not_dl (env : VolEnv) (c1 : String) (e : VolErr)
    (hlen : c1.length = 1)
    (hq : ∀ s2 e2, env.drivePS s2 = .error e2 → e2.isExternal = true)
    (h : getVolumeForDriveLetter env c1 = .error e) :
    ∀ q, e ≠ .notDriveLetter q := by
  intro q heq
  subst heq
  unfold getVolumeForDriveLetter at h
  rw [if_neg (by omega : ¬ c1.length ≠ 1)] at h
  split at h
  · rename_i e2 h2
    injection h with h3
    have hx := hq c1 e2 h2
    rw [h3] at hx
    simp [VolErr.isExternal] at hx
  · exact Except.noConfusion h

theorem fcvAux_safe (env : VolEnv) (orig : String)
    (hdir : ∀ s, env.dir s ≠ "")
    (hl : ∀ s e, env.lstat s = .error e → e.isExternal = true)
    (hps : ∀ s e, env.runPS s = .error e → e.isExternal = true)
    (hq : ∀ s e, env.drivePS s = .error e → e.isExternal = true) :
    ∀ (fuel : Nat) (c : String) (nl nd : Nat),
      (fcvAux env orig fuel c nl nd).1 ≠ .panic ∧
      ∀ v q, (fcvAux env orig fuel c nl nd).1 ≠ .ret v (some (.notDriveLetter q)) := by
  intro fuel
  induction fuel with
  | zero =>
    intro c nl nd
    refine ⟨by simp [fcvAux], ?_⟩
    intro v q h
    simp only [fcvAux] at h
    injection h with h1 h2
    injection h2 with h3
    exact VolErr.noConfusion h3
  | succ f ih =>
    intro c nl nd
    simp only [fcvAux]
    split
    · rename_i e hle
      refine ⟨by simp, ?_⟩
      intro v q h
      injection h with h1 h2
      injection h2 with h3
      exact deref_err_not_dl env c e (fun _ _ h2 => hps _ _ h2) (by
        exact absurd (hl c e hle) (by rw [h3]; simp [VolErr.isExternal])) q h3
    · split
      · split
        · rename_i e hde
          refine ⟨by simp, ?_⟩
          intro v q h
          injection h with h1 h2
          injection h2 with h3
          exact deref_err_not_dl env c e hps hde q h3
        · split
          · refine ⟨by simp, ?_⟩
            intro v q h
            injection h with h1 h2
            exact Option.noConfusion h2
          · exact ih _ (nl + 1) (nd + 1)
      · split
        · split
          · rename_i hsf
            exact absurd (sliceFirst_none _ hsf) (hdir c)
          · rename_i c1 hsf
            split
            · rename_i e hge
              refine ⟨by simp, ?_⟩
              intro v q h
              injection h with h1 h2
              injection h2 with h3
              exact gvdl_err_not_dl env c1 e (sliceFirst_length _ _ hsf) hq hge q h3
            · refine ⟨by simp, ?_⟩
              intro v q h
              injection h with h1 h2
              exact Option.noConfusion h2
        · exact ih (env.dir c) (nl + 1) nd

/-- C9: whenever the root-detection check fires, the candidate is the
output of `filepath.Dir`, which never returns an empty string (taken as a
hypothesis on the `dir` oracle, as it is Go standard-library behaviour);
hence — provided the collaborators only produce their own external
errors — the slice `candidatePath[0:1]` cannot panic, its result has
length exactly 1, and the invalid-drive-letter error branch of
`getVolumeForDriveLetter` is unreachable from the walker. -/
theorem root_branch_safety (env : VolEnv) (path : String)
    (hdir : ∀ s, env.dir s ≠ "")
    (hl : ∀ s e, env.lstat s = .error e → e.isExternal = true)
    (hps : ∀ s e, env.runPS s = .error e → e.isExternal = true)
    (hq : ∀ s e, env.drivePS s = .error e → e.isExternal = true) :
    findClosestVolume env path ≠ .panic ∧
    ∀ v q, findClosestVolume env path ≠ .ret v (some (.notDriveLetter q)) := by
  have h := fcvAux_safe env path hdir hl hps hq 256 path 0 0
  exact ⟨by simpa [findClosestVolume, findClosestVolumeStats] using h.1,
    by simpa [findClosestVolume, findClosestVolumeStats] using h.2⟩

/-- Witness for C9 in `envRoot` (whose `dir` oracle is constantly `C`,
never empty, and whose collaborators only fail externally), at the empty
input path. -/
theorem root_branch_safety_witness :
    findClosestVolume envRoot "" ≠ .panic ∧
    ∀ v q, findClosestVolume envRoot "" ≠ .ret v (some (.notDriveLetter q)) :=
  root_branch_safety envRoot ""
    (fun _ h => by simp [envRoot] at h)
    (fun _ e h => Except.noConfusion h)
    (fun _ e h => by
      have h2 : VolErr.external "e" = e := by
        injection h
      rw [← h2]; rfl)
    (fun _ e h => Except.noConfusion h)

/-! ## Unbounded recursion in getTarget (C10) -/

theorem getTargetFuel_some_reachesBase (env : VolEnv) :
    ∀ (fuel : Nat) (m : String) (r : VolRet),
      getTargetFuel env fuel m = some r → reachesBase env fuel m := by
  intro fuel
  induction fuel with
  | zero => intro m r h; exact Option.noConfusion h
  | succ f ih =>
    intro m r h
    simp only [getTargetFuel] at h
    rw [reachesBase]
    split at h
    · rename_i e he
      exact Or.inl ⟨e, he⟩
    · rename_i out hout
      split at h
      · rename_i h0
        exact Or.inr (Or.inl ⟨out, hout, h0⟩)
      · rename_i h0
        split at h
        · rename_i hpf
          exact Or.inr (Or.inr ⟨out, hout, h0, Or.inl hpf⟩)
        · rename_i hpf
          exact Or.inr (Or.inr ⟨out, hout, h0,
            Or.inr ⟨by simpa using hpf, ih _ r h⟩⟩)

theorem getTargetFuel_cyc : ∀ fuel : Nat, getTargetFuel envCyc fuel "m" = none := by
  intro fuel
  induction fuel with
  | zero => rfl
  | succ f ih =>
    have hstep : getTargetFuel envCyc (f + 1) "m" = getTargetFuel envCyc f "m" := rfl
    rw [hstep, ih]

/-- C10: `getTarget` carries no iteration bound: whenever it returns
within some recursion depth, its collaborator chain reaches an error,
empty output, or a `Volume`-prefixed target within that depth; in the
cyclic environment `envCyc` neither `getTarget` nor its public wrapper
`GetVolumeIDFromTargetPath` ever returns, at any depth, and no
iteration-bound failure is produced — in contrast to
`GetClosestVolumeIDFromTargetPath`, which on the same environment stops
after 256 iterations with the bound-exceeded error. -/
theorem getTarget_unbounded_recursion :
    (∀ (env : VolEnv) (fuel : Nat) (m : String) (r : VolRet),
      getTargetFuel env fuel m = some r → reachesBase env fuel m) ∧
    (∀ fuel : Nat, getTargetFuel envCyc fuel "m" = none) ∧
    (∀ fuel : Nat, GetVolumeIDFromTargetPath envCyc fuel "m" = none) ∧
    GetClosestVolumeIDFromTargetPath envCyc "m" =
      .ret "" (some (.wrapClosest "m" (.notFound "m"))) := by
  refine ⟨getTargetFuel_some_reachesBase, getTargetFuel_cyc, ?_, ?_⟩
  · intro fuel
    unfold GetVolumeIDFromTargetPath
    rw [getTargetFuel_cyc fuel]
  · have h := fcvAux_cyclic envCyc "m" (fun _ => rfl)
      (fun _ => ⟨"m", rfl, by decide⟩) 256 "m" 0 0
    unfold GetClosestVolumeIDFromTargetPath
    rw [show findClosestVolume envCyc "m" = .ret "" (some (.notFound "m")) by
      simp [findClosestVolume, findClosestVolumeStats, h]]

/-- Witness for C10: in `envSym` the collaborator immediately answers the
`Volume`-prefixed target `Volume{w}`, so `getTarget` returns at depth 1
and the base case is indeed reached. -/
theorem getTarget_unbounded_recursion_witness :
    getTargetFuel envSym 1 "m" =
      some (.ret (ensureVolumePrefix "Volume\x7bw\x7d") none) ∧
    reachesBase envSym 1 "m" :=
  ⟨by decide,
    getTarget_unbounded_recursion.1 envSym 1 "m"
      (.ret (ensureVolumePrefix "Volume\x7bw\x7d") none) (by decide)⟩
